import Mathlib

/-!
Verification of the order-creation workflow and the authentication layer of
a NestJS workshop backend, shallowly embedded in Lean.

The embedding follows the TypeScript source:
- `OrdersService.create` (orders service): catalog lookup by id set, total
  reduction, header save, item saves, with no wrapping transaction;
- `AuthService.validateUser` and `AuthController.login` (auth service and
  controller): email lookup, bcrypt comparison, generic failure message;
- `AuthGuard.canActivate` (guard): authorization header, removal of the
  first occurrence of the substring "Bearer ", JWT verification.

External effects are made explicit: the relational store is a `Storage`
value threaded through `create`; `bcrypt.compareSync`, `jwtService.sign`
and `jwtService.verify` are function parameters; a thrown exception is an
`Option` none / an explicit failure flag.
-/

/-- A catalog product row: Products(id, price). The name column plays no
role in pricing and is omitted. -/
structure Product where
  id : Nat
  price : Nat
deriving Repr, DecidableEq

/-- One requested line of an order: CreateOrderItemDto {productId, quantity}. -/
structure CreateOrderItemDto where
  productId : Nat
  quantity : Nat
deriving Repr, DecidableEq

/-- The order-creation request body: CreateOrderDto {userId, products}. -/
structure CreateOrderDto where
  userId : Nat
  products : List CreateOrderItemDto
deriving Repr, DecidableEq

/-- A persisted order header row: Orders(id, total, userId). -/
structure Order where
  id : Nat
  total : Nat
  userId : Nat
deriving Repr, DecidableEq

/-- A persisted order item row:
OrderItems(quantity, price, total, orderId, productId). -/
structure OrderItem where
  quantity : Nat
  price : Nat
  total : Nat
  orderId : Nat
  productId : Nat
deriving Repr, DecidableEq

/-- The relational store as seen by `OrdersService.create`: the orders
table and the order-items table. -/
structure Storage where
  orders : List Order
  orderItems : List OrderItem
deriving Repr, DecidableEq

namespace OrdersService

/-- `productsRepository.find({ where: { id: In(dto.products.map(p => p.productId)) } })`:
the catalog rows whose id appears among the requested product ids, in
table (catalog) order. Each row appears once however many request lines
name it. -/
def foundProducts (catalog : List Product) (dto : CreateOrderDto) : List Product :=
  catalog.filter (fun prod => dto.products.any (fun r => r.productId == prod.id))

/-- `createOrderDto.products.find((p) => p.productId === product.id)`: the
first requested line naming this product, if any. -/
def matchLine (dto : CreateOrderDto) (prod : Product) : Option CreateOrderItemDto :=
  dto.products.find? (fun r => r.productId == prod.id)

/-- The `products.reduce` computing the order total: for each found
product, add `product.price * item.quantity` where `item` is the first
matching request line. In the source a missing match would dereference
`undefined`; that crash is modelled as `none`. -/
def computeTotalAux (dto : CreateOrderDto) : List Product → Nat → Option Nat
  | [], acc => some acc
  | prod :: rest, acc =>
    match matchLine dto prod with
    | some item => computeTotalAux dto rest (acc + prod.price * item.quantity)
    | none => none

/-- The total of the order, reduced over the found products starting from 0. -/
def computeTotal (catalog : List Product) (dto : CreateOrderDto) : Option Nat :=
  computeTotalAux dto (foundProducts catalog dto) 0

/-- The `products.map` building the order items: one item per found
product, carrying the first matching request line quantity, the catalog
price, their product as line total, and the header id. A missing match is
the same modelled crash. -/
def mkItems (dto : CreateOrderDto) (orderId : Nat) : List Product → Option (List OrderItem)
  | [] => some []
  | prod :: rest =>
    match matchLine dto prod with
    | some item =>
      (mkItems dto orderId rest).map
        (fun tail =>
          { quantity := item.quantity, price := prod.price,
            total := prod.price * item.quantity,
            orderId := orderId, productId := prod.id } :: tail)
    | none => none

/-- `OrdersService.create`: look up the requested products, reduce the
total, save the order header (which assigns its generated id), then save
the items. There is no wrapping transaction: the header save commits
before the item save runs. `itemSaveFails` simulates the item-save write
throwing a persistence error; the returned option is the value the caller
sees (`none` when an exception escaped). -/
def create (catalog : List Product) (st : Storage) (dto : CreateOrderDto)
    (itemSaveFails : Bool) : Storage × Option Order :=
  match computeTotal catalog dto with
  | none => (st, none)
  | some total =>
    let order : Order := { id := st.orders.length + 1, total := total, userId := dto.userId }
    let st1 : Storage := { st with orders := st.orders ++ [order] }
    if itemSaveFails then (st1, none)
    else
      match mkItems dto order.id (foundProducts catalog dto) with
      | none => (st1, none)
      | some items => ({ st1 with orderItems := st1.orderItems ++ items }, some order)

end OrdersService

/-- A stored user row: Users(id, email, name, password) where password
holds the bcrypt hash. -/
structure User where
  id : Nat
  email : String
  name : String
  password : String
deriving Repr, DecidableEq

/-- The JWT claims {email, id} embedded at login and recovered by the
guard. -/
structure JwtPayload where
  email : String
  id : Nat
deriving Repr, DecidableEq

/-- What POST /auth/login answers: either a message object or an
access-token object. -/
inductive LoginResponse where
  | message (text : String)
  | token (access_token : String)
deriving Repr, DecidableEq

/-- `usersService.findOneByEmail`: `usersRepository.findOneBy({ email })`,
the first stored user with that email (null when none). -/
def findOneByEmail (users : List User) (email : String) : Option User :=
  users.find? (fun u => u.email == email)

namespace AuthService

/-- `AuthService.validateUser`: look the user up by email; if found and
`bcrypt.compareSync(password, user.password)` holds, return the user,
else null. `compareSync` stands for the bcrypt comparison. -/
def validateUser (compareSync : String → String → Bool) (users : List User)
    (email password : String) : Option User :=
  match findOneByEmail users email with
  | some user => if compareSync password user.password then some user else none
  | none => none

/-- `AuthService.login`: sign the payload {email, id} and wrap it as
{access_token}. `sign` stands for `jwtService.sign`. -/
def login (sign : JwtPayload → String) (user : User) : LoginResponse :=
  .token (sign { email := user.email, id := user.id })

end AuthService

namespace AuthController

/-- `AuthController.login`: reject blank email or password with the
fill-in message, then validate the credentials; on success delegate to
`AuthService.login`, otherwise answer the generic failure message. An
absent or empty JSON field is falsy in the source, modelled as the empty
string. -/
def login (compareSync : String → String → Bool) (sign : JwtPayload → String)
    (users : List User) (email password : String) : LoginResponse :=
  if email = "" ∨ password = "" then
    .message "Informe e-mail e senha para efetuar o login"
  else
    match AuthService.validateUser compareSync users email password with
    | some user => AuthService.login sign user
    | none => .message "Usuário ou senha inválidos"

end AuthController

/-- The characters of the string literal removed by the guard. -/
def bearerPat : List Char := "Bearer ".toList

/-- JavaScript `String.prototype.replace` with a string pattern removes
only the first occurrence: scan left to right and drop the pattern at the
first position where it matches, leaving the rest untouched. -/
def replaceFirst (pat : List Char) : List Char → List Char
  | [] => []
  | c :: cs =>
    if pat.isPrefixOf (c :: cs) then (c :: cs).drop pat.length
    else c :: replaceFirst pat cs

/-- `authorization.replace('Bearer ', '')` on the header value. -/
def stripBearer (s : String) : String :=
  String.mk (replaceFirst bearerPat s.data)

/-- Whether the pattern occurs as a contiguous sublist anywhere. -/
def hasOccurrence (pat : List Char) : List Char → Bool
  | [] => pat.isEmpty
  | c :: cs => pat.isPrefixOf (c :: cs) || hasOccurrence pat cs

/-- The guard outcome: false (deny, no detail) or true with the payload
attached to `request.user`. -/
inductive GuardResult where
  | deny
  | allow (user : JwtPayload)
deriving Repr, DecidableEq

namespace AuthGuard

/-- `AuthGuard.canActivate`: take the authorization header, strip the
first "Bearer " occurrence, deny when the result is absent or empty
(falsy), otherwise verify; a verification error is caught and denied.
`verify` stands for `jwtService.verify` with exceptions as `none`. -/
def canActivate (verify : String → Option JwtPayload)
    (authorization : Option String) : GuardResult :=
  match authorization.map stripBearer with
  | none => .deny
  | some token =>
    if token = "" then .deny
    else
      match verify token with
      | some payload => .allow payload
      | none => .deny

end AuthGuard

/-- Modelled from the spec (§4.1 OrderPricer), for refinement comparison
with `OrdersService.mkItems`: for each requested line, in request order,
look up productId in the catalog; if present, emit a priced line with
unitPrice the catalog price and lineTotal unitPrice × quantity; if
absent, drop the line entirely. -/
def specPricedLines (catalog : List Product) (lines : List CreateOrderItemDto)
    (orderId : Nat) : List OrderItem :=
  lines.filterMap (fun l =>
    (catalog.find? (fun p => p.id == l.productId)).map
      (fun p =>
        { quantity := l.quantity, price := p.price,
          total := p.price * l.quantity, orderId := orderId,
          productId := l.productId }))

/-- Modelled from the spec (§4.1): grandTotal is the sum of the emitted
line totals. -/
def specGrandTotal (catalog : List Product) (lines : List CreateOrderItemDto) : Nat :=
  ((specPricedLines catalog lines 0).map OrderItem.total).sum

namespace OrdersService

/-- Membership in the In(ids) lookup result. -/
lemma mem_foundProducts {catalog : List Product} {dto : CreateOrderDto} {prod : Product} :
    prod ∈ foundProducts catalog dto ↔
      prod ∈ catalog ∧ ∃ l ∈ dto.products, l.productId = prod.id := by
  simp only [foundProducts, List.mem_filter, List.any_eq_true, beq_iff_eq]

/-- A successful first-match lookup returns a request line naming the
product. -/
lemma matchLine_some {dto : CreateOrderDto} {prod : Product} {l : CreateOrderItemDto}
    (h : matchLine dto prod = some l) :
    l ∈ dto.products ∧ l.productId = prod.id := by
  refine ⟨List.mem_of_find?_eq_some h, ?_⟩
  have := List.find?_some h
  simpa [beq_iff_eq] using this

/-- The first-match lookup succeeds whenever some request line names the
product. -/
lemma matchLine_isSome {dto : CreateOrderDto} {prod : Product}
    (h : ∃ l ∈ dto.products, l.productId = prod.id) :
    (matchLine dto prod).isSome := by
  obtain ⟨l, hl, hid⟩ := h
  simp only [matchLine, List.find?_isSome]
  exact ⟨l, hl, by simp [hid]⟩

/-- On a list whose keys are distinct, the first element with a given
element's key is that element itself. -/
lemma find?_key_eq_of_nodup {α : Type} (key : α → Nat) :
    ∀ (l : List α), (l.map key).Nodup →
      ∀ a ∈ l, l.find? (fun x => key x == key a) = some a := by
  intro l
  induction l with
  | nil => intro _ a ha; cases ha
  | cons b t ih =>
    intro hnd a ha
    simp only [List.map_cons, List.nodup_cons, List.mem_map] at hnd
    rcases List.mem_cons.mp ha with rfl | hat
    · simp [List.find?]
    · have hne : key b ≠ key a := by
        intro heq
        exact hnd.1 ⟨a, hat, heq.symm⟩
      rw [List.find?_cons_of_neg _ (by simpa using hne)]
      exact ih hnd.2 a hat

/-- The total reduction and the item construction walk the same list with
the same first-match lookup: the reduced total is the accumulator plus
the sum of the built item totals, and the two fail together. -/
lemma computeTotalAux_eq_mkItems (dto : CreateOrderDto) (oid : Nat) :
    ∀ (ps : List Product) (acc : Nat),
      computeTotalAux dto ps acc =
        (mkItems dto oid ps).map (fun items => acc + (items.map OrderItem.total).sum) := by
  intro ps
  induction ps with
  | nil => intro acc; simp [computeTotalAux, mkItems]
  | cons prod rest ih =>
    intro acc
    simp only [computeTotalAux, mkItems]
    cases hm : matchLine dto prod with
    | none => rfl
    | some item =>
      dsimp only
      rw [ih (acc + prod.price * item.quantity), Option.map_map]
      cases mkItems dto oid rest with
      | none => rfl
      | some tail =>
        simp [Function.comp, Nat.add_assoc]

/-- Item construction succeeds on any product list whose members are all
named by some request line; the In(ids) result is such a list. -/
lemma mkItems_isSome (dto : CreateOrderDto) (oid : Nat) :
    ∀ (ps : List Product),
      (∀ prod ∈ ps, ∃ l ∈ dto.products, l.productId = prod.id) →
      ∃ items, mkItems dto oid ps = some items := by
  intro ps
  induction ps with
  | nil => intro _; exact ⟨[], rfl⟩
  | cons prod rest ih =>
    intro h
    obtain ⟨items, hitems⟩ := ih (fun p hp => h p (List.mem_cons_of_mem _ hp))
    have hsome := matchLine_isSome (h prod (List.mem_cons_self _ _))
    obtain ⟨l, hl⟩ := Option.isSome_iff_exists.mp hsome
    refine ⟨{ quantity := l.quantity, price := prod.price,
              total := prod.price * l.quantity, orderId := oid,
              productId := prod.id } :: items, ?_⟩
    simp [mkItems, hl, hitems]

/-- `create` with the item save succeeding: the header is appended with
the next id and the reduced total, the items are appended, and the header
is returned. -/
lemma create_success (catalog : List Product) (st : Storage) (dto : CreateOrderDto) :
    ∃ items : List OrderItem,
      mkItems dto (st.orders.length + 1) (foundProducts catalog dto) = some items ∧
      create catalog st dto false =
        ({ orders := st.orders ++
              [⟨st.orders.length + 1, (items.map OrderItem.total).sum, dto.userId⟩],
           orderItems := st.orderItems ++ items },
         some ⟨st.orders.length + 1, (items.map OrderItem.total).sum, dto.userId⟩) := by
  obtain ⟨items, hitems⟩ := mkItems_isSome dto (st.orders.length + 1)
    (foundProducts catalog dto)
    (fun prod hp => (mem_foundProducts.mp hp).2)
  refine ⟨items, hitems, ?_⟩
  have htot : computeTotal catalog dto = some ((items.map OrderItem.total).sum) := by
    rw [computeTotal, computeTotalAux_eq_mkItems dto (st.orders.length + 1), hitems]
    simp
  simp [create, htot, hitems]

/-- What the built items are: exactly one per listed product, priced from
the first matching request line. -/
lemma mem_mkItems (dto : CreateOrderDto) (oid : Nat) :
    ∀ (ps : List Product) (items : List OrderItem),
      mkItems dto oid ps = some items →
      ∀ it : OrderItem, it ∈ items ↔
        ∃ prod ∈ ps, ∃ l, matchLine dto prod = some l ∧
          it = { quantity := l.quantity, price := prod.price,
                 total := prod.price * l.quantity, orderId := oid,
                 productId := prod.id } := by
  intro ps
  induction ps with
  | nil =>
    intro items h it
    simp only [mkItems, Option.some.injEq] at h
    simp [← h]
  | cons prod rest ih =>
    intro items h it
    simp only [mkItems] at h
    cases hm : matchLine dto prod with
    | none => rw [hm] at h; cases h
    | some l =>
      rw [hm] at h
      cases hrest : mkItems dto oid rest with
      | none => rw [hrest] at h; cases h
      | some tail =>
        rw [hrest] at h
        simp only [Option.map_some', Option.some.injEq] at h
        subst h
        simp only [List.mem_cons, ih tail hrest it]
        constructor
        · rintro (rfl | ⟨p, hp, l2, hl2, rfl⟩)
          · exact ⟨prod, Or.inl rfl, l, hm, rfl⟩
          · exact ⟨p, Or.inr hp, l2, hl2, rfl⟩
        · rintro ⟨p, rfl | hp2, l2, hl2, rfl⟩
          · rw [hm] at hl2
            cases hl2
            exact Or.inl rfl
          · exact Or.inr ⟨p, hp2, l2, hl2, rfl⟩

/-- The built items carry the listed product ids, in order. -/
lemma mkItems_map_productId (dto : CreateOrderDto) (oid : Nat) :
    ∀ (ps : List Product) (items : List OrderItem),
      mkItems dto oid ps = some items →
      items.map OrderItem.productId = ps.map Product.id := by
  intro ps
  induction ps with
  | nil =>
    intro items h
    simp only [mkItems, Option.some.injEq] at h
    simp [← h]
  | cons prod rest ih =>
    intro items h
    simp only [mkItems] at h
    cases hm : matchLine dto prod with
    | none => rw [hm] at h; cases h
    | some l =>
      rw [hm] at h
      cases hrest : mkItems dto oid rest with
      | none => rw [hrest] at h; cases h
      | some tail =>
        rw [hrest] at h
        simp only [Option.map_some', Option.some.injEq] at h
        subst h
        simp [ih tail hrest]

/-- The id column of the In(ids) lookup result is a sublist of the id
column of the catalog. -/
lemma foundProducts_map_id_sublist (catalog : List Product) (dto : CreateOrderDto) :
    ((foundProducts catalog dto).map Product.id).Sublist (catalog.map Product.id) :=
  (List.filter_sublist _).map _

end OrdersService

/-- Membership in the spec-side priced lines. -/
lemma mem_specPricedLines {catalog : List Product} {lines : List CreateOrderItemDto}
    {oid : Nat} {it : OrderItem} :
    it ∈ specPricedLines catalog lines oid ↔
      ∃ l ∈ lines, ∃ p, catalog.find? (fun x => x.id == l.productId) = some p ∧
        it = { quantity := l.quantity, price := p.price,
               total := p.price * l.quantity, orderId := oid,
               productId := l.productId } := by
  simp only [specPricedLines, List.mem_filterMap, Option.map_eq_some']
  constructor
  · rintro ⟨l, hl, p, hp, rfl⟩
    exact ⟨l, hl, p, hp, rfl⟩
  · rintro ⟨l, hl, p, hp, rfl⟩
    exact ⟨l, hl, p, hp, rfl⟩

/-- The product-id column of the spec-side priced lines is a sublist of
the requested lines' productId column. -/
lemma specPricedLines_map_productId_sublist (catalog : List Product) (oid : Nat) :
    ∀ lines : List CreateOrderItemDto,
      ((specPricedLines catalog lines oid).map OrderItem.productId).Sublist
        (lines.map CreateOrderItemDto.productId) := by
  intro lines
  induction lines with
  | nil => simp [specPricedLines]
  | cons l t ih =>
    simp only [specPricedLines, List.filterMap_cons, List.map_cons]
    cases h : catalog.find? (fun p => p.id == l.productId) with
    | none =>
      simp only [Option.map_none']
      exact List.Sublist.cons _ (by simpa [specPricedLines] using ih)
    | some p =>
      simp only [Option.map_some', List.map_cons]
      exact List.Sublist.cons₂ _ (by simpa [specPricedLines] using ih)

/-- Core refinement: when the catalog ids are distinct (a primary key)
and the requested product ids are distinct, the items built by the
service are a permutation of the spec-side priced lines (the service
walks the catalog, the spec walks the request). -/
lemma mkItems_perm_specPricedLines (catalog : List Product) (dto : CreateOrderDto)
    (oid : Nat) (items : List OrderItem)
    (hcat : (catalog.map Product.id).Nodup)
    (hreq : (dto.products.map CreateOrderItemDto.productId).Nodup)
    (h : OrdersService.mkItems dto oid (OrdersService.foundProducts catalog dto) = some items) :
    items.Perm (specPricedLines catalog dto.products oid) := by
  have hmapeq : items.map OrderItem.productId =
      (OrdersService.foundProducts catalog dto).map Product.id :=
    OrdersService.mkItems_map_productId dto oid _ items h
  have hnditems : items.Nodup := by
    refine List.Nodup.of_map OrderItem.productId ?_
    rw [hmapeq]
    exact List.Nodup.sublist
      (OrdersService.foundProducts_map_id_sublist catalog dto) hcat
  have hndspec : (specPricedLines catalog dto.products oid).Nodup := by
    refine List.Nodup.of_map OrderItem.productId ?_
    exact List.Nodup.sublist
      (specPricedLines_map_productId_sublist catalog oid dto.products) hreq
  have hmem : ∀ it : OrderItem,
      it ∈ items ↔ it ∈ specPricedLines catalog dto.products oid := by
    intro it
    rw [OrdersService.mem_mkItems dto oid _ items h it, mem_specPricedLines]
    constructor
    · rintro ⟨prod, hp, l, hl, rfl⟩
      obtain ⟨hpcat, -⟩ := OrdersService.mem_foundProducts.mp hp
      obtain ⟨hlmem, hlid⟩ := OrdersService.matchLine_some hl
      refine ⟨l, hlmem, prod, ?_, ?_⟩
      · rw [hlid]
        exact OrdersService.find?_key_eq_of_nodup Product.id catalog hcat prod hpcat
      · rw [hlid]
    · rintro ⟨l, hl, p, hp, rfl⟩
      have hpmem : p ∈ catalog := List.mem_of_find?_eq_some hp
      have hpid : p.id = l.productId := by
        have := List.find?_some hp
        simpa [beq_iff_eq] using this
      refine ⟨p, OrdersService.mem_foundProducts.mpr ⟨hpmem, l, hl, hpid.symm⟩, l, ?_, ?_⟩
      · simp only [OrdersService.matchLine]
        rw [hpid]
        exact OrdersService.find?_key_eq_of_nodup CreateOrderItemDto.productId
          dto.products hreq l hl
      · rw [hpid]
  refine List.perm_of_nodup_nodup_toFinset_eq hnditems hndspec ?_
  ext it
  simp only [List.mem_toFinset]
  exact hmem it

/-- The oid column does not enter the line totals of the spec-side
priced lines. -/
lemma specPricedLines_map_total_oid (catalog : List Product) (oid : Nat) :
    ∀ lines : List CreateOrderItemDto,
      (specPricedLines catalog lines oid).map OrderItem.total =
        (specPricedLines catalog lines 0).map OrderItem.total := by
  intro lines
  induction lines with
  | nil => rfl
  | cons l t ih =>
    simp only [specPricedLines, List.filterMap_cons]
    cases h : catalog.find? (fun p => p.id == l.productId) with
    | none => simpa [specPricedLines] using ih
    | some p =>
      simp only [Option.map_some', List.map_cons]
      simpa [specPricedLines] using ih

/-- Removing the first occurrence of a pattern that never occurs changes
nothing. -/
lemma replaceFirst_eq_self (pat : List Char) :
    ∀ s : List Char, hasOccurrence pat s = false → replaceFirst pat s = s := by
  intro s
  induction s with
  | nil => intro _; rfl
  | cons c cs ih =>
    intro h
    simp only [hasOccurrence, Bool.or_eq_false_iff] at h
    simp only [replaceFirst]
    rw [if_neg (by simp [h.1]), ih h.2]

/-- A header value in which "Bearer " never occurs reaches verification
untouched. -/
lemma stripBearer_eq_self {s : String} (h : hasOccurrence bearerPat s.data = false) :
    stripBearer s = s := by
  rw [stripBearer, replaceFirst_eq_self _ _ h]

/-- Under the two distinctness hypotheses, the sum of the built item
totals is the spec-side grand total. -/
lemma sum_mkItems_total_eq_specGrandTotal (catalog : List Product)
    (dto : CreateOrderDto) (oid : Nat) (items : List OrderItem)
    (hcat : (catalog.map Product.id).Nodup)
    (hreq : (dto.products.map CreateOrderItemDto.productId).Nodup)
    (h : OrdersService.mkItems dto oid (OrdersService.foundProducts catalog dto) = some items) :
    (items.map OrderItem.total).sum = specGrandTotal catalog dto.products := by
  have hperm := mkItems_perm_specPricedLines catalog dto oid items hcat hreq h
  rw [specGrandTotal, ← specPricedLines_map_total_oid catalog oid dto.products]
  exact (hperm.map OrderItem.total).sum_eq

/-- Under the two distinctness hypotheses, the reduced total is the
spec-side grand total. -/
lemma computeTotal_eq_specGrandTotal (catalog : List Product) (dto : CreateOrderDto)
    (hcat : (catalog.map Product.id).Nodup)
    (hreq : (dto.products.map CreateOrderItemDto.productId).Nodup) :
    OrdersService.computeTotal catalog dto = some (specGrandTotal catalog dto.products) := by
  obtain ⟨items, hitems⟩ := OrdersService.mkItems_isSome dto 0
    (OrdersService.foundProducts catalog dto)
    (fun prod hp => (OrdersService.mem_foundProducts.mp hp).2)
  rw [OrdersService.computeTotal, OrdersService.computeTotalAux_eq_mkItems dto 0, hitems,
    Option.map_some']
  simp [sum_mkItems_total_eq_specGrandTotal catalog dto 0 items hcat hreq hitems]

/-- C1: the claim calls for the header and item writes to be one atomic
unit, leaving storage unchanged when the item write fails; the code saves
the header first and has no wrapping transaction, so after a failing item
write the order header is still visible in storage. Concrete run: catalog
[Product 1 at price 10], request userId 7 quantity 2 of product 1, empty
storage, item save throws: the caller sees a failure yet storage now
holds the header (id 1, total 20, userId 7) and no items. -/
theorem orderHeader_persists_after_item_write_failure :
    (OrdersService.create [⟨1, 10⟩] ⟨[], []⟩ ⟨7, [⟨1, 2⟩]⟩ true).2 = none ∧
    (OrdersService.create [⟨1, 10⟩] ⟨[], []⟩ ⟨7, [⟨1, 2⟩]⟩ true).1 ≠
      (⟨[], []⟩ : Storage) ∧
    (OrdersService.create [⟨1, 10⟩] ⟨[], []⟩ ⟨7, [⟨1, 2⟩]⟩ true).1.orders =
      [⟨1, 20, 7⟩] ∧
    (OrdersService.create [⟨1, 10⟩] ⟨[], []⟩ ⟨7, [⟨1, 2⟩]⟩ true).1.orderItems = [] := by
  decide

/-- C2 counterexample: the claim says each occurrence of a duplicated
product id becomes its own priced line. Request two lines for product 1
(quantities 2 and 3) against catalog [Product 1 at price 10]: the code
creates a single item with quantity 2 (the first occurrence) and total
20, not two lines summing 50. -/
theorem duplicate_lines_counterexample :
    (OrdersService.create [⟨1, 10⟩] ⟨[], []⟩ ⟨7, [⟨1, 2⟩, ⟨1, 3⟩]⟩ false).1.orderItems =
      [⟨2, 10, 20, 1, 1⟩] ∧
    (OrdersService.create [⟨1, 10⟩] ⟨[], []⟩ ⟨7, [⟨1, 2⟩, ⟨1, 3⟩]⟩ false).2 =
      some ⟨1, 20, 7⟩ ∧
    ((OrdersService.create [⟨1, 10⟩] ⟨[], []⟩ ⟨7, [⟨1, 2⟩, ⟨1, 3⟩]⟩ false).1.orderItems).length ≠ 2 := by
  decide

/-- C2 amended: duplicate product ids are deduplicated. When the catalog
ids are distinct, the created order holds exactly one item per product id
that occurs both in the catalog and in the request, and each item takes
its quantity from the first request line naming its product, with line
total quantity × unit price. -/
theorem duplicate_lines_deduplicated (catalog : List Product) (st : Storage)
    (dto : CreateOrderDto)
    (hcat : (catalog.map Product.id).Nodup) :
    ∃ (items : List OrderItem) (order : Order),
      OrdersService.create catalog st dto false =
        ({ orders := st.orders ++ [order], orderItems := st.orderItems ++ items },
         some order) ∧
      (∀ pid : Nat,
        (items.map OrderItem.productId).count pid =
          if pid ∈ catalog.map Product.id ∧
             pid ∈ dto.products.map CreateOrderItemDto.productId then 1 else 0) ∧
      (∀ it ∈ items,
        ∃ l, dto.products.find? (fun r => r.productId == it.productId) = some l ∧
          it.quantity = l.quantity ∧ it.total = it.price * it.quantity) := by
  obtain ⟨items, hitems, hcreate⟩ := OrdersService.create_success catalog st dto
  refine ⟨items, _, hcreate, ?_, ?_⟩
  · intro pid
    have hmap := OrdersService.mkItems_map_productId dto _ _ items hitems
    rw [hmap]
    have hnodupF : ((OrdersService.foundProducts catalog dto).map Product.id).Nodup :=
      List.Nodup.sublist (OrdersService.foundProducts_map_id_sublist catalog dto) hcat
    by_cases hc : pid ∈ catalog.map Product.id ∧
        pid ∈ dto.products.map CreateOrderItemDto.productId
    · rw [if_pos hc]
      obtain ⟨hcm, hrm⟩ := hc
      obtain ⟨p, hp, hpid⟩ := List.mem_map.mp hcm
      obtain ⟨l, hl, hlid⟩ := List.mem_map.mp hrm
      have hf : p ∈ OrdersService.foundProducts catalog dto :=
        OrdersService.mem_foundProducts.mpr ⟨hp, l, hl, by rw [hlid, ← hpid]⟩
      exact List.count_eq_one_of_mem hnodupF (List.mem_map.mpr ⟨p, hf, hpid⟩)
    · rw [if_neg hc, List.count_eq_zero]
      intro hmem
      obtain ⟨p, hf, hpid⟩ := List.mem_map.mp hmem
      obtain ⟨hp, l, hl, hlid⟩ := OrdersService.mem_foundProducts.mp hf
      exact hc ⟨List.mem_map.mpr ⟨p, hp, hpid⟩,
        List.mem_map.mpr ⟨l, hl, by rw [hlid, hpid]⟩⟩
  · intro it hit
    rw [OrdersService.mem_mkItems dto _ _ items hitems it] at hit
    obtain ⟨prod, hp, l, hl, rfl⟩ := hit
    exact ⟨l, hl, rfl, rfl⟩

/-- C2 amended, witnessed at the duplicate request of the counterexample. -/
theorem duplicate_lines_deduplicated_witness :
    ∃ (items : List OrderItem) (order : Order),
      OrdersService.create [⟨1, 10⟩] ⟨[], []⟩ ⟨7, [⟨1, 2⟩, ⟨1, 3⟩]⟩ false =
        ({ orders := (⟨[], []⟩ : Storage).orders ++ [order],
           orderItems := (⟨[], []⟩ : Storage).orderItems ++ items },
         some order) ∧
      (∀ pid : Nat,
        (items.map OrderItem.productId).count pid =
          if pid ∈ ([⟨1, 10⟩] : List Product).map Product.id ∧
             pid ∈ (CreateOrderDto.products ⟨7, [⟨1, 2⟩, ⟨1, 3⟩]⟩).map
                CreateOrderItemDto.productId then 1 else 0) ∧
      (∀ it ∈ items,
        ∃ l, (CreateOrderDto.products ⟨7, [⟨1, 2⟩, ⟨1, 3⟩]⟩).find?
            (fun r => r.productId == it.productId) = some l ∧
          it.quantity = l.quantity ∧ it.total = it.price * it.quantity) :=
  duplicate_lines_deduplicated [⟨1, 10⟩] ⟨[], []⟩ ⟨7, [⟨1, 2⟩, ⟨1, 3⟩]⟩ (by decide)

/-- C3 counterexample: the claim says a successful validation returns
only the public fields and never the stored password hash. With the
stored user (id 1, email ana at mail, hash "bcrypt-hash") and a matching
comparison, `validateUser` returns the full stored record, whose password
field is exactly the stored hash. -/
theorem validateUser_counterexample :
    AuthService.validateUser (fun pw hash => pw == "secret" && hash == "bcrypt-hash")
        [⟨1, "ana@mail.com", "Ana", "bcrypt-hash"⟩] "ana@mail.com" "secret" =
      some ⟨1, "ana@mail.com", "Ana", "bcrypt-hash"⟩ ∧
    (AuthService.validateUser (fun pw hash => pw == "secret" && hash == "bcrypt-hash")
        [⟨1, "ana@mail.com", "Ana", "bcrypt-hash"⟩] "ana@mail.com" "secret").map
        User.password = some "bcrypt-hash" := by
  constructor <;> rfl

/-- C3 amended: on success `validateUser` hands its caller the full
stored user record, password hash included; it is the login step that
restricts to the public fields, answering only an access token signed
over the claims {email, id}. -/
theorem validateUser_full_record_login_public (compareSync : String → String → Bool)
    (sign : JwtPayload → String) (users : List User) (email password : String)
    (u : User) (he : email ≠ "") (hp : password ≠ "")
    (hv : AuthService.validateUser compareSync users email password = some u) :
    findOneByEmail users email = some u ∧
    AuthController.login compareSync sign users email password =
      .token (sign { email := u.email, id := u.id }) := by
  have hfind : findOneByEmail users email = some u := by
    have hv2 := hv
    rw [AuthService.validateUser] at hv2
    cases hf : findOneByEmail users email with
    | none =>
      rw [hf] at hv2
      dsimp only at hv2
      cases hv2
    | some u2 =>
      rw [hf] at hv2
      dsimp only at hv2
      split_ifs at hv2 with hcmp
      exact hv2
  refine ⟨hfind, ?_⟩
  have hcond : ¬(email = "" ∨ password = "") := not_or.mpr ⟨he, hp⟩
  simp only [AuthController.login, hv]
  rw [if_neg hcond]
  rfl

/-- C3 amended, witnessed at the counterexample input. -/
theorem validateUser_full_record_login_public_witness :
    findOneByEmail [⟨1, "ana@mail.com", "Ana", "bcrypt-hash"⟩] "ana@mail.com" =
      some ⟨1, "ana@mail.com", "Ana", "bcrypt-hash"⟩ ∧
    AuthController.login (fun pw hash => pw == "secret" && hash == "bcrypt-hash")
        (fun p => p.email) [⟨1, "ana@mail.com", "Ana", "bcrypt-hash"⟩]
        "ana@mail.com" "secret" =
      .token ((fun p : JwtPayload => p.email) { email := "ana@mail.com", id := 1 }) :=
  validateUser_full_record_login_public
    (fun pw hash => pw == "secret" && hash == "bcrypt-hash") (fun p => p.email)
    [⟨1, "ana@mail.com", "Ana", "bcrypt-hash"⟩] "ana@mail.com" "secret"
    ⟨1, "ana@mail.com", "Ana", "bcrypt-hash"⟩ (by decide) (by decide) rfl

/-- C4 counterexample: the claim quantifies over every request whose
product ids all exist in the catalog, and asserts the grand total is the
sum of unitPrice × quantity over all requested lines. Catalog [Product 5
at price 4], request [(5, qty 1), (5, qty 2)]: every requested id exists,
the per-line sum is 12, but the code computes 4 (only the first
occurrence of the duplicated id counts, once). -/
theorem allFound_total_counterexample :
    OrdersService.computeTotal [⟨5, 4⟩] ⟨3, [⟨5, 1⟩, ⟨5, 2⟩]⟩ = some 4 ∧
    specGrandTotal [⟨5, 4⟩] [⟨5, 1⟩, ⟨5, 2⟩] = 12 ∧
    (OrdersService.create [⟨5, 4⟩] ⟨[], []⟩ ⟨3, [⟨5, 1⟩, ⟨5, 2⟩]⟩ false).2 =
      some ⟨1, 4, 3⟩ ∧
    (4 : Nat) ≠ 12 := by
  decide

/-- C4 amended: when the requested product ids are distinct (and the
catalog ids are, being a primary key), a request whose ids all exist in
the catalog is priced at the exact sum of unitPrice × quantity over the
lines, the persisted order total matches, and the concrete scenario of
the claim comes out as stated: catalog {1 at 10, 2 at 5}, request user 7
with (1, qty 2) and (2, qty 3) gives total 35 and the two items
(qty 2, price 10, total 20) and (qty 3, price 5, total 15). -/
theorem grandTotal_matches_when_all_found (catalog : List Product) (st : Storage)
    (dto : CreateOrderDto)
    (hcat : (catalog.map Product.id).Nodup)
    (hreq : (dto.products.map CreateOrderItemDto.productId).Nodup)
    (hall : ∀ l ∈ dto.products, ∃ p ∈ catalog, p.id = l.productId) :
    OrdersService.computeTotal catalog dto = some (specGrandTotal catalog dto.products) ∧
    (OrdersService.create catalog st dto false).2 =
      some ⟨st.orders.length + 1, specGrandTotal catalog dto.products, dto.userId⟩ ∧
    OrdersService.create [⟨1, 10⟩, ⟨2, 5⟩] ⟨[], []⟩ ⟨7, [⟨1, 2⟩, ⟨2, 3⟩]⟩ false =
      (⟨[⟨1, 35, 7⟩], [⟨2, 10, 20, 1, 1⟩, ⟨3, 5, 15, 1, 2⟩]⟩, some ⟨1, 35, 7⟩) := by
  refine ⟨computeTotal_eq_specGrandTotal catalog dto hcat hreq, ?_, by decide⟩
  obtain ⟨items, hitems, hcreate⟩ := OrdersService.create_success catalog st dto
  rw [hcreate]
  simp [sum_mkItems_total_eq_specGrandTotal catalog dto _ items hcat hreq hitems]

/-- C4 amended, witnessed at the concrete scenario of the claim. -/
theorem grandTotal_matches_when_all_found_witness :
    OrdersService.computeTotal [⟨1, 10⟩, ⟨2, 5⟩] ⟨7, [⟨1, 2⟩, ⟨2, 3⟩]⟩ =
      some (specGrandTotal [⟨1, 10⟩, ⟨2, 5⟩]
        (CreateOrderDto.products ⟨7, [⟨1, 2⟩, ⟨2, 3⟩]⟩)) ∧
    (OrdersService.create [⟨1, 10⟩, ⟨2, 5⟩] ⟨[], []⟩ ⟨7, [⟨1, 2⟩, ⟨2, 3⟩]⟩ false).2 =
      some ⟨(⟨[], []⟩ : Storage).orders.length + 1,
        specGrandTotal [⟨1, 10⟩, ⟨2, 5⟩] (CreateOrderDto.products ⟨7, [⟨1, 2⟩, ⟨2, 3⟩]⟩),
        CreateOrderDto.userId ⟨7, [⟨1, 2⟩, ⟨2, 3⟩]⟩⟩ ∧
    OrdersService.create [⟨1, 10⟩, ⟨2, 5⟩] ⟨[], []⟩ ⟨7, [⟨1, 2⟩, ⟨2, 3⟩]⟩ false =
      (⟨[⟨1, 35, 7⟩], [⟨2, 10, 20, 1, 1⟩, ⟨3, 5, 15, 1, 2⟩]⟩, some ⟨1, 35, 7⟩) :=
  grandTotal_matches_when_all_found [⟨1, 10⟩, ⟨2, 5⟩] ⟨[], []⟩ ⟨7, [⟨1, 2⟩, ⟨2, 3⟩]⟩
    (by decide) (by decide) (by decide)

/-- C5 counterexample: the claim says that with an unknown id present,
the order keeps exactly the known-product lines and the total excludes
only the unknown contribution. Catalog [Product 2 at price 7], request
[(2, qty 1), (2, qty 2), (99, qty 3)]: the known lines number two and sum
to 21, but the code keeps a single item of total 7. -/
theorem unknown_lines_counterexample :
    (OrdersService.create [⟨2, 7⟩] ⟨[], []⟩ ⟨4, [⟨2, 1⟩, ⟨2, 2⟩, ⟨99, 3⟩]⟩
        false).1.orderItems = [⟨1, 7, 7, 1, 2⟩] ∧
    (OrdersService.create [⟨2, 7⟩] ⟨[], []⟩ ⟨4, [⟨2, 1⟩, ⟨2, 2⟩, ⟨99, 3⟩]⟩ false).2 =
      some ⟨1, 7, 4⟩ ∧
    (specPricedLines [⟨2, 7⟩] [⟨2, 1⟩, ⟨2, 2⟩] 1).length = 2 ∧
    specGrandTotal [⟨2, 7⟩] [⟨2, 1⟩, ⟨2, 2⟩] = 21 := by
  decide

/-- C5 amended: when the request carries no duplicate product ids (and
the catalog ids are distinct), a request with at least one unknown id
still succeeds; the created items are exactly the known-product lines
(up to order), every created item references a catalog product, and the
total is the sum over the known lines only. -/
theorem unknown_lines_dropped (catalog : List Product) (st : Storage)
    (dto : CreateOrderDto)
    (hcat : (catalog.map Product.id).Nodup)
    (hreq : (dto.products.map CreateOrderItemDto.productId).Nodup)
    (hunk : ∃ l ∈ dto.products, ∀ p ∈ catalog, p.id ≠ l.productId) :
    ∃ (items : List OrderItem) (order : Order),
      OrdersService.create catalog st dto false =
        ({ orders := st.orders ++ [order], orderItems := st.orderItems ++ items },
         some order) ∧
      items.Perm (specPricedLines catalog dto.products order.id) ∧
      order.total = specGrandTotal catalog dto.products ∧
      ∀ it ∈ items, ∃ p ∈ catalog, p.id = it.productId := by
  obtain ⟨items, hitems, hcreate⟩ := OrdersService.create_success catalog st dto
  refine ⟨items, _, hcreate, ?_, ?_, ?_⟩
  · exact mkItems_perm_specPricedLines catalog dto _ items hcat hreq hitems
  · exact sum_mkItems_total_eq_specGrandTotal catalog dto _ items hcat hreq hitems
  · intro it hit
    rw [OrdersService.mem_mkItems dto _ _ items hitems it] at hit
    obtain ⟨prod, hp, l, hl, rfl⟩ := hit
    exact ⟨prod, (OrdersService.mem_foundProducts.mp hp).1, rfl⟩

/-- C5 amended, witnessed at a request with one known and one unknown id. -/
theorem unknown_lines_dropped_witness :
    ∃ (items : List OrderItem) (order : Order),
      OrdersService.create [⟨1, 10⟩] ⟨[], []⟩ ⟨7, [⟨1, 1⟩, ⟨99, 1⟩]⟩ false =
        ({ orders := (⟨[], []⟩ : Storage).orders ++ [order],
           orderItems := (⟨[], []⟩ : Storage).orderItems ++ items },
         some order) ∧
      items.Perm (specPricedLines [⟨1, 10⟩]
        (CreateOrderDto.products ⟨7, [⟨1, 1⟩, ⟨99, 1⟩]⟩) order.id) ∧
      order.total = specGrandTotal [⟨1, 10⟩]
        (CreateOrderDto.products ⟨7, [⟨1, 1⟩, ⟨99, 1⟩]⟩) ∧
      ∀ it ∈ items, ∃ p ∈ ([⟨1, 10⟩] : List Product), p.id = it.productId :=
  unknown_lines_dropped [⟨1, 10⟩] ⟨[], []⟩ ⟨7, [⟨1, 1⟩, ⟨99, 1⟩]⟩
    (by decide) (by decide) (by decide)

/-- C6: a request none of whose product ids matches the catalog still
creates an order: the header is appended with total zero, no items are
written, and the header is returned (no rejection). -/
theorem zero_matched_order_created (catalog : List Product) (st : Storage)
    (dto : CreateOrderDto)
    (h : ∀ l ∈ dto.products, ∀ p ∈ catalog, p.id ≠ l.productId) :
    OrdersService.create catalog st dto false =
      ({ orders := st.orders ++ [⟨st.orders.length + 1, 0, dto.userId⟩],
         orderItems := st.orderItems },
       some ⟨st.orders.length + 1, 0, dto.userId⟩) := by
  have hfound : OrdersService.foundProducts catalog dto = [] := by
    rw [OrdersService.foundProducts, List.filter_eq_nil_iff]
    intro prod hp
    simp only [List.any_eq_true, beq_iff_eq, not_exists]
    intro l
    rintro ⟨hl, hid⟩
    exact h l hl prod hp hid.symm
  simp [OrdersService.create, OrdersService.computeTotal, hfound,
    OrdersService.computeTotalAux, OrdersService.mkItems]

/-- C6, witnessed at a request naming only the unknown product 99. -/
theorem zero_matched_order_created_witness :
    OrdersService.create [⟨1, 10⟩] ⟨[], []⟩ ⟨7, [⟨99, 1⟩]⟩ false =
      ({ orders := (⟨[], []⟩ : Storage).orders ++
           [⟨(⟨[], []⟩ : Storage).orders.length + 1, 0,
             CreateOrderDto.userId ⟨7, [⟨99, 1⟩]⟩⟩],
         orderItems := (⟨[], []⟩ : Storage).orderItems },
       some ⟨(⟨[], []⟩ : Storage).orders.length + 1, 0,
         CreateOrderDto.userId ⟨7, [⟨99, 1⟩]⟩⟩) :=
  zero_matched_order_created [⟨1, 10⟩] ⟨[], []⟩ ⟨7, [⟨99, 1⟩]⟩ (by decide)

/-- C7: a login with an email matching no user and a login with an
existing email but a password failing the bcrypt comparison answer the
same generic failure message, with no observable distinction. -/
theorem login_failures_indistinguishable (compareSync : String → String → Bool)
    (sign : JwtPayload → String) (users : List User) (e1 p1 e2 p2 : String)
    (h1e : e1 ≠ "") (h1p : p1 ≠ "") (h2e : e2 ≠ "") (h2p : p2 ≠ "")
    (hnouser : findOneByEmail users e1 = none)
    (hwrong : ∀ u, findOneByEmail users e2 = some u →
      compareSync p2 u.password = false) :
    AuthController.login compareSync sign users e1 p1 =
      .message "Usuário ou senha inválidos" ∧
    AuthController.login compareSync sign users e2 p2 =
      AuthController.login compareSync sign users e1 p1 := by
  have hl1 : AuthController.login compareSync sign users e1 p1 =
      .message "Usuário ou senha inválidos" := by
    simp only [AuthController.login, AuthService.validateUser, hnouser]
    rw [if_neg (not_or.mpr ⟨h1e, h1p⟩)]
  have hv2 : AuthService.validateUser compareSync users e2 p2 = none := by
    rw [AuthService.validateUser]
    cases hf : findOneByEmail users e2 with
    | none => rfl
    | some u =>
      dsimp only
      simp [hwrong u hf]
  refine ⟨hl1, ?_⟩
  rw [hl1]
  simp only [AuthController.login, hv2]
  rw [if_neg (not_or.mpr ⟨h2e, h2p⟩)]

/-- C7, witnessed: a nonexistent email and an existing email with an
always-failing comparison both answer the generic failure. -/
theorem login_failures_indistinguishable_witness :
    AuthController.login (fun _ _ => false) (fun p => p.email)
        [⟨1, "ana@mail.com", "Ana", "h1"⟩] "bob@mail.com" "x" =
      .message "Usuário ou senha inválidos" ∧
    AuthController.login (fun _ _ => false) (fun p => p.email)
        [⟨1, "ana@mail.com", "Ana", "h1"⟩] "ana@mail.com" "y" =
      AuthController.login (fun _ _ => false) (fun p => p.email)
        [⟨1, "ana@mail.com", "Ana", "h1"⟩] "bob@mail.com" "x" :=
  login_failures_indistinguishable (fun _ _ => false) (fun p => p.email)
    [⟨1, "ana@mail.com", "Ana", "h1"⟩] "bob@mail.com" "x" "ana@mail.com" "y"
    (by decide) (by decide) (by decide) (by decide) rfl (fun _ _ => rfl)

/-- C8: whenever order creation succeeds, the persisted order total is
the sum of the line totals of the items persisted with it. -/
theorem order_total_eq_sum_item_totals (catalog : List Product) (st : Storage)
    (dto : CreateOrderDto) (st2 : Storage) (order : Order)
    (h : OrdersService.create catalog st dto false = (st2, some order)) :
    ∃ items : List OrderItem, st2.orderItems = st.orderItems ++ items ∧
      order.total = (items.map OrderItem.total).sum := by
  obtain ⟨items, hitems, hcreate⟩ := OrdersService.create_success catalog st dto
  rw [hcreate] at h
  rw [Prod.mk.injEq] at h
  obtain ⟨h1, h2⟩ := h
  injection h2 with h2
  subst h1
  subst h2
  exact ⟨items, rfl, rfl⟩

/-- C8, witnessed at a one-line order: total 20 equals the single item
line total. -/
theorem order_total_eq_sum_item_totals_witness :
    ∃ items : List OrderItem,
      (Storage.mk [⟨1, 20, 7⟩] [⟨2, 10, 20, 1, 1⟩]).orderItems =
        (⟨[], []⟩ : Storage).orderItems ++ items ∧
      Order.total ⟨1, 20, 7⟩ = (items.map OrderItem.total).sum :=
  order_total_eq_sum_item_totals [⟨1, 10⟩] ⟨[], []⟩ ⟨7, [⟨1, 2⟩]⟩
    ⟨[⟨1, 20, 7⟩], [⟨2, 10, 20, 1, 1⟩]⟩ ⟨1, 20, 7⟩ (by decide)

/-- C9: the guard denies when no authorization header is present, denies
when the stripped token is empty, denies when verification fails (a bare
deny, no detail), and accepts exactly a successfully verified token,
attaching its claims. -/
theorem canActivate_deny_accept (verify : String → Option JwtPayload)
    (auth : Option String) :
    (auth = none → AuthGuard.canActivate verify auth = .deny) ∧
    (∀ s, auth = some s → stripBearer s = "" →
      AuthGuard.canActivate verify auth = .deny) ∧
    (∀ s, auth = some s → stripBearer s ≠ "" → verify (stripBearer s) = none →
      AuthGuard.canActivate verify auth = .deny) ∧
    (∀ s c, auth = some s → stripBearer s ≠ "" → verify (stripBearer s) = some c →
      AuthGuard.canActivate verify auth = .allow c) := by
  refine ⟨?_, ?_, ?_, ?_⟩
  · rintro rfl; rfl
  · rintro s rfl hempty
    simp [AuthGuard.canActivate, hempty]
  · rintro s rfl hne hv
    simp [AuthGuard.canActivate, hv, hne]
  · rintro s c rfl hne hv
    simp [AuthGuard.canActivate, hv, hne]

/-- C9, witnessed: a verifier accepting exactly "tok" lets the header
value "Bearer tok" through with the claims attached. -/
theorem canActivate_deny_accept_witness :
    AuthGuard.canActivate
        (fun s => if s == "tok" then some ⟨"ana@mail.com", 1⟩ else none)
        (some "Bearer tok") = .allow ⟨"ana@mail.com", 1⟩ :=
  (canActivate_deny_accept
      (fun s => if s == "tok" then some ⟨"ana@mail.com", 1⟩ else none)
      (some "Bearer tok")).2.2.2 "Bearer tok" ⟨"ana@mail.com", 1⟩ rfl
    (by decide) (by decide)

/-- C10: a header value in which "Bearer " never occurs (a bare token or
a different scheme) reaches verification exactly as sent, and when the
verifier accepts it the guard allows the request with the claims
attached. -/
theorem bare_token_passed_as_is (verify : String → Option JwtPayload)
    (s : String) (c : JwtPayload)
    (hno : hasOccurrence bearerPat s.data = false)
    (hne : s ≠ "")
    (hv : verify s = some c) :
    stripBearer s = s ∧
    AuthGuard.canActivate verify (some s) = .allow c := by
  have hstrip := stripBearer_eq_self hno
  refine ⟨hstrip, ?_⟩
  simp [AuthGuard.canActivate, hstrip, hne, hv]

/-- C10, witnessed at the bare token "tok123". -/
theorem bare_token_passed_as_is_witness :
    stripBearer "tok123" = "tok123" ∧
    AuthGuard.canActivate
        (fun s => if s == "tok123" then some ⟨"ana@mail.com", 1⟩ else none)
        (some "tok123") = .allow ⟨"ana@mail.com", 1⟩ :=
  bare_token_passed_as_is
    (fun s => if s == "tok123" then some ⟨"ana@mail.com", 1⟩ else none)
    "tok123" ⟨"ana@mail.com", 1⟩ (by decide) (by decide) (by decide)
